import Mathlib

/-!
# Verification of the XYZ binary point-cloud codec (`src/io/xyz.rs`)

A shallow embedding of the streaming binary codec for point-cloud records:
the record codec (`XyzRecord::write` / `XyzRecord::read`), the format tag
(`Format`), the streaming writer (`XyzInternalWriter`) and the streaming
reader (`XyzInternalReader`).

Modelling conventions:
* Bytes are `Nat` values (< 256 for any byte actually produced by the code).
* An `f64` coordinate is modelled by its 64-bit pattern as a `Nat`
  (`to_ne_bytes` / `from_ne_bytes` act on bit patterns only; the native byte
  order is modelled as little-endian, the same order on both sides, which is
  all the code relies on). Record equality is bit-pattern equality.
* The seekable sink (`Cursor<Vec<u8>>` in the repository's tests) is a byte
  buffer together with a write position; writing past the end zero-fills the
  gap, exactly as `Cursor` does.
* `std::io::Error` is modelled by its kind plus message; a panic (`expect`)
  during reader construction is modelled as a distinct `panicked` outcome,
  separate from returning an error.
-/

namespace Xyz

/-- Error kinds of `std::io::Error` used by the code. -/
inductive IoErrorKind where
  | InvalidInput
  | InvalidData
  | UnexpectedEof
  | Other
deriving DecidableEq

/-- An `std::io::Error`: a kind and a message. -/
structure IoError where
  kind : IoErrorKind
  msg : String
deriving DecidableEq

instance {ε α : Type} [DecidableEq ε] [DecidableEq α] : DecidableEq (Except ε α) := by
  intro a b
  cases a <;> cases b
  case error.error e₁ e₂ =>
    exact match decEq e₁ e₂ with
    | isTrue h => isTrue (by rw [h])
    | isFalse h => isFalse (by intro hc; cases hc; exact h rfl)
  case error.ok => exact isFalse (by intro hc; cases hc)
  case ok.error => exact isFalse (by intro hc; cases hc)
  case ok.ok a₁ a₂ =>
    exact match decEq a₁ a₂ with
    | isTrue h => isTrue (by rw [h])
    | isFalse h => isFalse (by intro hc; cases hc; exact h rfl)

/-- `const XYZ_MAGIC: &[u8] = b"XYZB";` — the magic number identifying a
valid XYZ binary file, as bytes. -/
def XYZ_MAGIC : List Nat := [88, 89, 90, 66]

/-- `u64::MAX`. -/
def u64MAX : Nat := 2 ^ 64 - 1

/-- `u64::to_ne_bytes` (native order modelled as little-endian):
the eight bytes of `n`, least significant first. -/
def u64ToBytes (n : Nat) : List Nat :=
  [n % 256, n / 256 % 256, n / 256 ^ 2 % 256, n / 256 ^ 3 % 256,
   n / 256 ^ 4 % 256, n / 256 ^ 5 % 256, n / 256 ^ 6 % 256, n / 256 ^ 7 % 256]

/-- `u64::from_ne_bytes` on a byte list, least significant first. -/
def u64FromBytes (bs : List Nat) : Nat :=
  bs.foldr (fun b acc => b + 256 * acc) 0

/-- `enum Format { Xyz, XyzMeta }`. -/
inductive Format where
  | Xyz
  | XyzMeta
deriving DecidableEq

/-- `impl From<Format> for u8`. -/
def Format.toU8 : Format → Nat
  | .Xyz => 1
  | .XyzMeta => 2

/-- `impl TryFrom<u8> for Format`: `1 => Xyz`, `2 => XyzMeta`, any other
value is rejected with a message. -/
def Format.tryFrom (value : Nat) : Except String Format :=
  if value = 1 then Except.ok Format.Xyz
  else if value = 2 then Except.ok Format.XyzMeta
  else Except.error ("unknown Format value: " ++ toString value)

/-- `struct XyzRecordMeta`: classification, number of returns, return
number — one byte each. -/
structure XyzRecordMeta where
  classification : Nat
  number_of_returns : Nat
  return_number : Nat
deriving DecidableEq

/-- `struct XyzRecord`: coordinates (modelled as 64-bit f64 bit patterns)
plus optional metadata. -/
structure XyzRecord where
  x : Nat
  y : Nat
  z : Nat
  meta : Option XyzRecordMeta
deriving DecidableEq

/-- A seekable byte sink (`Cursor<Vec<u8>>`): buffer plus write position. -/
structure Sink where
  buf : List Nat
  pos : Nat
deriving DecidableEq

/-- `write_all` on the sink: overwrite at the current position, zero-filling
any gap if the position is past the end (as `Cursor<Vec<u8>>` does), and
advance the position. -/
def Sink.writeAll (s : Sink) (bs : List Nat) : Sink :=
  { buf := s.buf.take s.pos ++ List.replicate (s.pos - s.buf.length) 0 ++ bs
           ++ s.buf.drop (s.pos + bs.length),
    pos := s.pos + bs.length }

/-- `seek(SeekFrom::Start(n))`. -/
def Sink.seekStart (s : Sink) (n : Nat) : Sink :=
  { s with pos := n }

/-- `XyzRecord::write`: write the three coordinates; then, depending on the
format, write the three metadata bytes, or fail with `InvalidInput` if the
format requires metadata and the record has none. Returns the sink as left
after the (possibly partial) writes, together with the result. -/
def XyzRecord.writeTo (r : XyzRecord) (w : Sink) (format : Format) :
    Sink × Except IoError Unit :=
  let w := w.writeAll (u64ToBytes r.x)
  let w := w.writeAll (u64ToBytes r.y)
  let w := w.writeAll (u64ToBytes r.z)
  match format, r.meta with
  | Format.Xyz, _ => (w, Except.ok ())
  | Format.XyzMeta, some meta =>
      (w.writeAll [meta.classification, meta.number_of_returns, meta.return_number],
       Except.ok ())
  | Format.XyzMeta, none =>
      (w, Except.error ⟨IoErrorKind.InvalidInput, "meta data required for XyzMeta format"⟩)

/-- A readable byte source (`Cursor<Vec<u8>>` on the read side): buffer plus
read position. -/
structure Source where
  buf : List Nat
  pos : Nat
deriving DecidableEq

/-- `read_exact` into a buffer of `n` bytes: succeeds returning the `n`
bytes at the current position if available, advancing the position; fails
with `UnexpectedEof` otherwise (the position is not advanced on failure, as
for a `Cursor`). -/
def Source.readExact (s : Source) (n : Nat) : Except IoError (List Nat × Source) :=
  if s.pos + n ≤ s.buf.length then
    Except.ok ((s.buf.drop s.pos).take n, { s with pos := s.pos + n })
  else
    Except.error ⟨IoErrorKind.UnexpectedEof, "failed to fill whole buffer"⟩

/-- `XyzRecord::read`: read the three 8-byte coordinates, then the three
metadata bytes when the format has them. Returns the source as left after
the reads together with the result. -/
def XyzRecord.readFrom (s : Source) (format : Format) :
    Source × Except IoError XyzRecord :=
  match s.readExact 8 with
  | Except.error e => (s, Except.error e)
  | Except.ok (xb, s) =>
    match s.readExact 8 with
    | Except.error e => (s, Except.error e)
    | Except.ok (yb, s) =>
      match s.readExact 8 with
      | Except.error e => (s, Except.error e)
      | Except.ok (zb, s) =>
        match format with
        | Format.Xyz =>
            (s, Except.ok ⟨u64FromBytes xb, u64FromBytes yb, u64FromBytes zb, none⟩)
        | Format.XyzMeta =>
          match s.readExact 3 with
          | Except.error e => (s, Except.error e)
          | Except.ok (mb, s) =>
              (s, Except.ok ⟨u64FromBytes xb, u64FromBytes yb, u64FromBytes zb,
                some ⟨mb.headD 0, (mb.drop 1).headD 0, (mb.drop 2).headD 0⟩⟩)

/-- `struct XyzInternalWriter<W>`: optional sink (`None` once finished),
running count of records written, and the fixed format. The `Instant`
statistics field is I/O-free and not modelled. -/
structure XyzInternalWriter where
  inner : Option Sink
  records_written : Nat
  format : Format
deriving DecidableEq

/-- `XyzInternalWriter::new`. -/
def XyzInternalWriter.new (inner : Sink) (format : Format) : XyzInternalWriter :=
  { inner := some inner, records_written := 0, format := format }

/-- `XyzInternalWriter::write_record`: fail if already finished; on the
first write (`records_written == 0`) emit the header — magic, format byte,
and `u64::MAX` as the placeholder count — then serialize the record;
increment the count only on success. -/
def XyzInternalWriter.write_record (w : XyzInternalWriter) (record : XyzRecord) :
    XyzInternalWriter × Except IoError Unit :=
  match w.inner with
  | none => (w, Except.error ⟨IoErrorKind.Other, "writer has already been finished"⟩)
  | some sink =>
    let sink :=
      if w.records_written = 0 then
        ((sink.writeAll XYZ_MAGIC).writeAll [w.format.toU8]).writeAll (u64ToBytes u64MAX)
      else sink
    match record.writeTo sink w.format with
    | (sink, Except.error e) =>
        ({ w with inner := some sink }, Except.error e)
    | (sink, Except.ok _) =>
        ({ w with inner := some sink, records_written := w.records_written + 1 },
         Except.ok ())

/-- `XyzInternalWriter::finish`: fail if already finished; otherwise take
the sink, seek to the byte just after magic+tag and overwrite the count
field with `records_written`, returning the sink. -/
def XyzInternalWriter.finish (w : XyzInternalWriter) :
    XyzInternalWriter × Except IoError Sink :=
  match w.inner with
  | none => (w, Except.error ⟨IoErrorKind.Other, "writer has already been finished"⟩)
  | some sink =>
    let sink := (sink.seekStart (XYZ_MAGIC.length + 1)).writeAll
      (u64ToBytes w.records_written)
    ({ w with inner := none }, Except.ok sink)

/-- `struct XyzInternalReader<R>`: source, format, declared record count,
and running count of records read. -/
structure XyzInternalReader where
  inner : Source
  format : Format
  n_records : Nat
  records_read : Nat
deriving DecidableEq

/-- The outcome of `XyzInternalReader::new`: success, an `std::io::Error`
returned to the caller, or a panic (the `expect` on the format decode). -/
inductive NewResult where
  | ok (r : XyzInternalReader)
  | err (e : IoError)
  | panicked (msg : String)
deriving DecidableEq

/-- `XyzInternalReader::new`: read and check the magic (InvalidData on
mismatch), read the format byte and decode it — panicking via
`expect("should have known format")` on an unknown value — then read the
declared record count. -/
def XyzInternalReader.new (inner : Source) : NewResult :=
  match inner.readExact XYZ_MAGIC.length with
  | Except.error e => NewResult.err e
  | Except.ok (magic, inner) =>
    if magic ≠ XYZ_MAGIC then
      NewResult.err ⟨IoErrorKind.InvalidData, "invalid magic number"⟩
    else
      match inner.readExact 1 with
      | Except.error e => NewResult.err e
      | Except.ok (tagBytes, inner) =>
        match Format.tryFrom (tagBytes.headD 0) with
        | Except.error _ => NewResult.panicked "should have known format"
        | Except.ok format =>
          match inner.readExact 8 with
          | Except.error e => NewResult.err e
          | Except.ok (cnt, inner) =>
              NewResult.ok
                { inner := inner, format := format,
                  n_records := u64FromBytes cnt, records_read := 0 }

/-- `XyzInternalReader::next`: once the running count has reached the
declared count, return `Ok(None)` without touching the source; otherwise
deserialize one record, incrementing the running count only on success. -/
def XyzInternalReader.next (r : XyzInternalReader) :
    XyzInternalReader × Except IoError (Option XyzRecord) :=
  if r.n_records ≤ r.records_read then
    (r, Except.ok none)
  else
    match XyzRecord.readFrom r.inner r.format with
    | (inner, Except.error e) =>
        ({ r with inner := inner }, Except.error e)
    | (inner, Except.ok record) =>
        ({ r with inner := inner, records_read := r.records_read + 1 },
         Except.ok (some record))

/-- The metadata bytes a record contributes to the stream: present only in
the with-metadata format when the record carries metadata. -/
def metaBytes (f : Format) (m : Option XyzRecordMeta) : List Nat :=
  match f, m with
  | Format.XyzMeta, some mm => [mm.classification, mm.number_of_returns, mm.return_number]
  | _, _ => []

/-- The bytes that one `XyzRecord::write` call emits into the sink for a
given format: the three 8-byte coordinates, then — only in the
with-metadata format with metadata present — the three metadata bytes.
(In the failing with-metadata/no-metadata case the coordinates have already
been written when the error is returned, so this is the emitted byte string
in every case.) -/
def recordBytes (f : Format) (r : XyzRecord) : List Nat :=
  u64ToBytes r.x ++ u64ToBytes r.y ++ u64ToBytes r.z ++ metaBytes f r.meta

/-- The header bytes emitted by the first `write_record` call: magic, format
tag byte, and the all-ones placeholder count. -/
def headerBytes (f : Format) : List Nat :=
  XYZ_MAGIC ++ [f.toU8] ++ u64ToBytes u64MAX

/-- Serialized size of one record: 24 bytes bare, 27 with metadata. -/
def fmtSize : Format → Nat
  | Format.Xyz => 24
  | Format.XyzMeta => 27

/-- The record's metadata presence matches the format tag: absent for the
bare format, present for the with-metadata format. -/
def metaMatches (f : Format) (r : XyzRecord) : Prop :=
  match f with
  | Format.Xyz => r.meta = none
  | Format.XyzMeta => r.meta ≠ none

instance (f : Format) (r : XyzRecord) : Decidable (metaMatches f r) :=
  match f with
  | Format.Xyz => inferInstanceAs (Decidable (r.meta = none))
  | Format.XyzMeta => inferInstanceAs (Decidable (r.meta ≠ none))

/-- The record's coordinate bit patterns fit in 64 bits (every value of a
Rust `f64` does). -/
def ValidRecord (r : XyzRecord) : Prop :=
  r.x < 2 ^ 64 ∧ r.y < 2 ^ 64 ∧ r.z < 2 ^ 64

instance (r : XyzRecord) : Decidable (ValidRecord r) :=
  inferInstanceAs (Decidable (_ ∧ _ ∧ _))

/-- Write a list of records one `write_record` call at a time, keeping the
final writer state. -/
def writeRecords (w : XyzInternalWriter) (rs : List XyzRecord) : XyzInternalWriter :=
  rs.foldl (fun w r => (w.write_record r).1) w

/-- The concatenated record section of a stream holding `rs`. -/
def bodyBytes (f : Format) (rs : List XyzRecord) : List Nat :=
  (rs.map (recordBytes f)).flatten

/-- The full byte stream for records `rs` in format `f` after `finish`:
magic, tag, true count, then the records back to back. -/
def streamBytes (f : Format) (rs : List XyzRecord) : List Nat :=
  XYZ_MAGIC ++ [f.toU8] ++ u64ToBytes rs.length ++ bodyBytes f rs

/-- The results of `n` successive `next()` calls on a reader. -/
def drain (r : XyzInternalReader) : Nat → List (Except IoError (Option XyzRecord))
  | 0 => []
  | n + 1 => (r.next).2 :: drain (r.next).1 n

/-! ## Basic lemmas about the byte-level primitives -/

/-- Writing at the end of the buffer appends. -/
theorem writeAll_at_end (buf bs : List Nat) :
    Sink.writeAll ⟨buf, buf.length⟩ bs = ⟨buf ++ bs, (buf ++ bs).length⟩ := by
  simp [Sink.writeAll, List.drop_eq_nil_of_le]

/-- Writing at an interior position overwrites in place. -/
theorem writeAll_overwrite (a old rest bs : List Nat) (h : old.length = bs.length) :
    Sink.writeAll ⟨a ++ old ++ rest, a.length⟩ bs =
      ⟨a ++ bs ++ rest, a.length + bs.length⟩ := by
  have h1 : (a ++ old ++ rest).take a.length = a := by
    rw [List.append_assoc]
    exact List.take_left a (old ++ rest)
  have h2 : (a ++ old ++ rest).drop (a.length + bs.length) = rest := by
    have hl : a.length + bs.length = (a ++ old).length := by
      simp [List.length_append, h]
    rw [hl]
    exact List.drop_left (a ++ old) rest
  have h3 : a.length - (a ++ old ++ rest).length = 0 := by
    simp [List.length_append]
  simp [Sink.writeAll, h1, h2, h3]
  exact List.drop_left' h

/-- Writing on a sink positioned at the end of its buffer appends
(conditional form, usable by `simp` through chained writes). -/
theorem writeAll_end_cond (s : Sink) (bs : List Nat) (hp : s.pos = s.buf.length) :
    s.writeAll bs = ⟨s.buf ++ bs, s.pos + bs.length⟩ := by
  obtain ⟨buf, pos⟩ := s
  simp only at hp
  subst hp
  simp [Sink.writeAll, List.drop_eq_nil_of_le]

/-- `u64ToBytes` always yields eight bytes. -/
theorem length_u64ToBytes (n : Nat) : (u64ToBytes n).length = 8 := rfl

/-- Byte round trip for the 64-bit count. -/
theorem u64FromBytes_u64ToBytes (n : Nat) :
    u64FromBytes (u64ToBytes n) = n % 2 ^ 64 := by
  simp only [u64FromBytes, u64ToBytes, List.foldr]
  omega

/-- `read_exact` succeeds and returns exactly the next `n` bytes when they
are available. -/
theorem readExact_spec (buf pre rest : List Nat) (p n : Nat)
    (hd : buf.drop p = pre ++ rest) (hl : pre.length = n) (hn : 0 < n) :
    Source.readExact ⟨buf, p⟩ n = Except.ok (pre, ⟨buf, p + n⟩) := by
  have hlen : p + n ≤ buf.length := by
    have h1 : buf.length - p = pre.length + rest.length := by
      rw [← List.length_append, ← hd, List.length_drop]
    omega
  unfold Source.readExact
  rw [if_pos hlen, hd, ← hl, List.take_left]

/-- Advancing the read position past a prefix of the remaining bytes. -/
theorem drop_shift (buf pre rest : List Nat) (p n : Nat)
    (hd : buf.drop p = pre ++ rest) (hl : pre.length = n) :
    buf.drop (p + n) = rest := by
  rw [← List.drop_drop, hd, ← hl, List.drop_left]

/-- Decoding the encoded format tag byte recovers the tag. -/
theorem tryFrom_toU8 (f : Format) : Format.tryFrom f.toU8 = Except.ok f := by
  cases f <;> rfl

/-- `metaMatches` fixes the serialized record size. -/
theorem length_recordBytes (f : Format) (r : XyzRecord) (hm : metaMatches f r) :
    (recordBytes f r).length = fmtSize f := by
  cases f
  case Xyz =>
    have hnone : r.meta = none := hm
    simp [recordBytes, metaBytes, fmtSize, hnone, length_u64ToBytes]
  case XyzMeta =>
    have hsome : r.meta ≠ none := hm
    obtain ⟨m, hm'⟩ : ∃ m, r.meta = some m := by
      cases h : r.meta
      · exact absurd h hsome
      · exact ⟨_, rfl⟩
    simp [recordBytes, metaBytes, fmtSize, hm', length_u64ToBytes]

/-- `XyzRecord::write` on a sink positioned at its end: appends exactly
`recordBytes` (coordinates always; metadata only in the successful
with-metadata case) and fails with `InvalidInput` precisely when the format
requires metadata and the record has none. -/
theorem writeTo_eq (r : XyzRecord) (buf : List Nat) (f : Format) :
    XyzRecord.writeTo r ⟨buf, buf.length⟩ f =
      (⟨buf ++ recordBytes f r, (buf ++ recordBytes f r).length⟩,
       if f = Format.XyzMeta ∧ r.meta = none then
         Except.error ⟨IoErrorKind.InvalidInput, "meta data required for XyzMeta format"⟩
       else Except.ok ()) := by
  cases f <;> rcases hm : r.meta with _ | m <;>
    simp [XyzRecord.writeTo, hm, writeAll_end_cond, recordBytes, metaBytes, length_u64ToBytes,
      List.append_assoc]

/-- `XyzRecord::write`, conditional form on any end-positioned sink. -/
theorem writeTo_end_cond (r : XyzRecord) (s : Sink) (f : Format)
    (hp : s.pos = s.buf.length) :
    XyzRecord.writeTo r s f =
      (⟨s.buf ++ recordBytes f r, s.pos + (recordBytes f r).length⟩,
       if f = Format.XyzMeta ∧ r.meta = none then
         Except.error ⟨IoErrorKind.InvalidInput, "meta data required for XyzMeta format"⟩
       else Except.ok ()) := by
  obtain ⟨buf, pos⟩ := s
  simp only at hp
  subst hp
  rw [writeTo_eq]
  simp

/-- `XyzRecord::read` on a source whose remaining bytes start with a
serialized record recovers that record, consuming exactly its bytes. -/
theorem readFrom_spec (buf rest : List Nat) (p : Nat) (f : Format) (r : XyzRecord)
    (hd : buf.drop p = recordBytes f r ++ rest) (hm : metaMatches f r)
    (hv : ValidRecord r) :
    XyzRecord.readFrom ⟨buf, p⟩ f = (⟨buf, p + fmtSize f⟩, Except.ok r) := by
  obtain ⟨x, y, z, meta⟩ := r
  obtain ⟨hx, hy, hz⟩ := hv
  simp only at hx hy hz
  cases f
  case Xyz =>
    have hnone : meta = none := hm
    subst hnone
    have hd' : buf.drop p = u64ToBytes x ++ (u64ToBytes y ++ (u64ToBytes z ++ rest)) := by
      simpa [recordBytes, metaBytes, List.append_assoc] using hd
    have h1 := readExact_spec buf (u64ToBytes x) _ p 8 hd' (length_u64ToBytes x) (by omega)
    have hd1 := drop_shift buf (u64ToBytes x) _ p 8 hd' (length_u64ToBytes x)
    have h2 := readExact_spec buf (u64ToBytes y) _ (p + 8) 8 hd1 (length_u64ToBytes y) (by omega)
    have hd2 := drop_shift buf (u64ToBytes y) _ (p + 8) 8 hd1 (length_u64ToBytes y)
    have h3 := readExact_spec buf (u64ToBytes z) _ (p + 8 + 8) 8 hd2 (length_u64ToBytes z) (by omega)
    simp [XyzRecord.readFrom, h1, h2, h3, fmtSize, u64FromBytes_u64ToBytes,
      Nat.mod_eq_of_lt hx, Nat.mod_eq_of_lt hy, Nat.mod_eq_of_lt hz]
    omega
  case XyzMeta =>
    have hsome : meta ≠ none := hm
    obtain ⟨m, hm'⟩ : ∃ m, meta = some m := by
      cases h : meta
      · exact absurd h hsome
      · exact ⟨_, rfl⟩
    subst hm'
    have hd' : buf.drop p = u64ToBytes x ++ (u64ToBytes y ++ (u64ToBytes z ++
        ([m.classification, m.number_of_returns, m.return_number] ++ rest))) := by
      simpa [recordBytes, metaBytes, List.append_assoc] using hd
    have h1 := readExact_spec buf (u64ToBytes x) _ p 8 hd' (length_u64ToBytes x) (by omega)
    have hd1 := drop_shift buf (u64ToBytes x) _ p 8 hd' (length_u64ToBytes x)
    have h2 := readExact_spec buf (u64ToBytes y) _ (p + 8) 8 hd1 (length_u64ToBytes y) (by omega)
    have hd2 := drop_shift buf (u64ToBytes y) _ (p + 8) 8 hd1 (length_u64ToBytes y)
    have h3 := readExact_spec buf (u64ToBytes z) _ (p + 8 + 8) 8 hd2 (length_u64ToBytes z) (by omega)
    have hd3 := drop_shift buf (u64ToBytes z) _ (p + 8 + 8) 8 hd2 (length_u64ToBytes z)
    have h4 := readExact_spec buf [m.classification, m.number_of_returns, m.return_number]
      rest (p + 8 + 8 + 8) 3 hd3 rfl (by omega)
    simp [XyzRecord.readFrom, h1, h2, h3, h4, fmtSize, u64FromBytes_u64ToBytes,
      Nat.mod_eq_of_lt hx, Nat.mod_eq_of_lt hy, Nat.mod_eq_of_lt hz]
    omega

/-- One `write_record` call on a live, end-positioned writer: emits the
header exactly when `records_written = 0`, then the record bytes; the count
advances only on success, and the only failure is the metadata-mismatch
`InvalidInput`. -/
theorem write_record_eq (buf : List Nat) (k : Nat) (f : Format) (r : XyzRecord) :
    XyzInternalWriter.write_record ⟨some ⟨buf, buf.length⟩, k, f⟩ r =
      (⟨some ⟨buf ++ (if k = 0 then headerBytes f else []) ++ recordBytes f r,
          (buf ++ (if k = 0 then headerBytes f else []) ++ recordBytes f r).length⟩,
        if f = Format.XyzMeta ∧ r.meta = none then k else k + 1, f⟩,
       if f = Format.XyzMeta ∧ r.meta = none then
         Except.error ⟨IoErrorKind.InvalidInput, "meta data required for XyzMeta format"⟩
       else Except.ok ()) := by
  by_cases hk : k = 0 <;> by_cases herr : f = Format.XyzMeta ∧ r.meta = none <;>
    simp [XyzInternalWriter.write_record, hk, herr, writeTo_end_cond, writeAll_end_cond,
      headerBytes, length_u64ToBytes, List.append_assoc, XYZ_MAGIC] <;>
    omega

/-- The record section of `r :: rs` is `r`'s bytes followed by the rest. -/
theorem bodyBytes_cons (f : Format) (r : XyzRecord) (rs : List XyzRecord) :
    bodyBytes f (r :: rs) = recordBytes f r ++ bodyBytes f rs := by
  simp [bodyBytes]

/-- Writing a list of matching records on a live writer that has already
written at least one record appends exactly the records' bytes and advances
the count by the list length. -/
theorem writeRecords_spec (rs : List XyzRecord) (f : Format) (buf : List Nat) (k : Nat)
    (hk : k ≠ 0) (hm : ∀ r ∈ rs, metaMatches f r) :
    writeRecords ⟨some ⟨buf, buf.length⟩, k, f⟩ rs =
      ⟨some ⟨buf ++ bodyBytes f rs, (buf ++ bodyBytes f rs).length⟩, k + rs.length, f⟩ := by
  induction rs generalizing buf k with
  | nil => simp [writeRecords, bodyBytes]
  | cons r rest ih =>
    have hmr : metaMatches f r := hm r (by simp)
    have herr : ¬(f = Format.XyzMeta ∧ r.meta = none) := by
      rintro ⟨hf, hmn⟩
      subst hf
      exact hmr hmn
    have hstep : XyzInternalWriter.write_record ⟨some ⟨buf, buf.length⟩, k, f⟩ r =
        (⟨some ⟨buf ++ recordBytes f r, (buf ++ recordBytes f r).length⟩, k + 1, f⟩,
         Except.ok ()) := by
      rw [write_record_eq]
      simp [hk, herr]
    calc writeRecords ⟨some ⟨buf, buf.length⟩, k, f⟩ (r :: rest)
        = writeRecords (XyzInternalWriter.write_record ⟨some ⟨buf, buf.length⟩, k, f⟩ r).1
            rest := rfl
      _ = writeRecords ⟨some ⟨buf ++ recordBytes f r, (buf ++ recordBytes f r).length⟩,
            k + 1, f⟩ rest := by rw [hstep]
      _ = ⟨some ⟨(buf ++ recordBytes f r) ++ bodyBytes f rest,
            ((buf ++ recordBytes f r) ++ bodyBytes f rest).length⟩,
            (k + 1) + rest.length, f⟩ :=
          ih _ _ (by omega) (fun x hx => hm x (by simp [hx]))
      _ = ⟨some ⟨buf ++ bodyBytes f (r :: rest), (buf ++ bodyBytes f (r :: rest)).length⟩,
            k + (r :: rest).length, f⟩ := by
          simp [bodyBytes_cons, List.append_assoc]
          omega

/-- `finish` on a live writer seeks to offset 5 and overwrites the 8-byte
count field in place. -/
theorem finish_eq (a old rest : List Nat) (pos k : Nat) (f : Format)
    (ha : a.length = 5) (hold : old.length = 8) :
    XyzInternalWriter.finish ⟨some ⟨a ++ old ++ rest, pos⟩, k, f⟩ =
      (⟨none, k, f⟩, Except.ok ⟨a ++ u64ToBytes k ++ rest, 13⟩) := by
  have h5 : (XYZ_MAGIC.length + 1) = a.length := by simp [XYZ_MAGIC, ha]
  simp only [XyzInternalWriter.finish, Sink.seekStart]
  rw [h5, writeAll_overwrite a old rest _ (by rw [hold, length_u64ToBytes])]
  simp [ha, length_u64ToBytes]

/-- Reader construction on a well-formed stream: accepts the magic, decodes
the tag, reads the count, and starts at offset 13 with zero records read. -/
theorem new_on_stream (f : Format) (n : Nat) (body : List Nat) (hn : n < 2 ^ 64) :
    XyzInternalReader.new ⟨XYZ_MAGIC ++ [f.toU8] ++ u64ToBytes n ++ body, 0⟩ =
      NewResult.ok ⟨⟨XYZ_MAGIC ++ [f.toU8] ++ u64ToBytes n ++ body, 13⟩, f, n, 0⟩ := by
  set buf : List Nat := XYZ_MAGIC ++ [f.toU8] ++ u64ToBytes n ++ body with hbuf
  have hd0 : buf.drop 0 = XYZ_MAGIC ++ ([f.toU8] ++ (u64ToBytes n ++ body)) := by
    simp [hbuf, List.append_assoc]
  have h1 : Source.readExact ⟨buf, 0⟩ 4 = Except.ok (XYZ_MAGIC, ⟨buf, 4⟩) := by
    simpa using readExact_spec buf XYZ_MAGIC _ 0 4 hd0 rfl (by omega)
  have hd1 : buf.drop 4 = [f.toU8] ++ (u64ToBytes n ++ body) := by
    simpa using drop_shift buf XYZ_MAGIC _ 0 4 hd0 rfl
  have h2 : Source.readExact ⟨buf, 4⟩ 1 = Except.ok ([f.toU8], ⟨buf, 5⟩) := by
    simpa using readExact_spec buf [f.toU8] _ 4 1 hd1 rfl (by omega)
  have hd2 : buf.drop 5 = u64ToBytes n ++ body := by
    simpa using drop_shift buf [f.toU8] _ 4 1 hd1 rfl
  have h3 : Source.readExact ⟨buf, 5⟩ 8 = Except.ok (u64ToBytes n, ⟨buf, 13⟩) := by
    simpa using readExact_spec buf (u64ToBytes n) body 5 8 hd2 (length_u64ToBytes n) (by omega)
  simp [XyzInternalReader.new, XYZ_MAGIC, h1, h2, h3, tryFrom_toU8,
    u64FromBytes_u64ToBytes, Nat.mod_eq_of_lt hn]
  omega

/-- Draining a reader whose remaining bytes hold exactly the records `rs`
(declared count `records_read + rs.length`) yields the records in order and
then `Ok(None)`. -/
theorem drain_spec (rs : List XyzRecord) (f : Format) (buf rest : List Nat) (p k : Nat)
    (hd : buf.drop p = bodyBytes f rs ++ rest)
    (hm : ∀ r ∈ rs, metaMatches f r ∧ ValidRecord r) :
    drain ⟨⟨buf, p⟩, f, k + rs.length, k⟩ (rs.length + 1) =
      rs.map (fun r => Except.ok (some r)) ++ [Except.ok none] := by
  induction rs generalizing p k with
  | nil => simp [drain, XyzInternalReader.next]
  | cons r rest' ih =>
    have hmr := hm r (by simp)
    have hread := readFrom_spec buf (bodyBytes f rest' ++ rest) p f r
      (by simpa [bodyBytes_cons, List.append_assoc] using hd) hmr.1 hmr.2
    have hcond : ¬(k + (rest'.length + 1) ≤ k) := by omega
    have hnext : XyzInternalReader.next ⟨⟨buf, p⟩, f, k + (rest'.length + 1), k⟩ =
        (⟨⟨buf, p + fmtSize f⟩, f, k + (rest'.length + 1), k + 1⟩, Except.ok (some r)) := by
      simp [XyzInternalReader.next, hcond, hread]
    have hdrop : buf.drop (p + fmtSize f) = bodyBytes f rest' ++ rest := by
      refine drop_shift buf (recordBytes f r) _ p (fmtSize f) ?_ (length_recordBytes f r hmr.1)
      simpa [bodyBytes_cons, List.append_assoc] using hd
    simp only [List.length_cons]
    rw [drain, hnext]
    rw [show k + (rest'.length + 1) = (k + 1) + rest'.length by omega]
    rw [ih _ _ hdrop (fun x hx => hm x (by simp [hx]))]
    simp

/-! ## Claim theorems -/

/-- C1 (amended, N ≥ 1): for every nonempty sequence of records whose
metadata presence matches the chosen format tag (and whose coordinate bit
patterns fit in 64 bits, with fewer than `2^64` records), writing them all
with `write_record`, calling `finish`, and opening the resulting bytes with
`XyzInternalReader::new` succeeds, and repeated `next()` yields exactly the
records, equal to the originals and in order, followed by `Ok(None)`.
For N = 0 the claim fails: see the counterexample — the header is never
emitted, `finish` zero-fills, and reader construction fails. -/
theorem c1_roundtrip (f : Format) (rs : List XyzRecord) (hne : rs ≠ [])
    (hcnt : rs.length < 2 ^ 64)
    (hm : ∀ r ∈ rs, metaMatches f r ∧ ValidRecord r) :
    ((writeRecords (XyzInternalWriter.new ⟨[], 0⟩ f) rs).finish).2 =
      Except.ok ⟨streamBytes f rs, 13⟩ ∧
    XyzInternalReader.new ⟨streamBytes f rs, 0⟩ =
      NewResult.ok ⟨⟨streamBytes f rs, 13⟩, f, rs.length, 0⟩ ∧
    drain ⟨⟨streamBytes f rs, 13⟩, f, rs.length, 0⟩ (rs.length + 1) =
      rs.map (fun r => Except.ok (some r)) ++ [Except.ok none] := by
  refine ⟨?_, ?_, ?_⟩
  · obtain ⟨r, rest, rfl⟩ : ∃ r rest, rs = r :: rest := by
      cases rs
      · exact absurd rfl hne
      · exact ⟨_, _, rfl⟩
    have herr : ¬(f = Format.XyzMeta ∧ r.meta = none) := by
      rintro ⟨hf, hmn⟩
      have hx := (hm r (by simp)).1
      subst hf
      exact hx hmn
    have hstep : XyzInternalWriter.write_record (XyzInternalWriter.new ⟨[], 0⟩ f) r =
        (⟨some ⟨headerBytes f ++ recordBytes f r,
            (headerBytes f ++ recordBytes f r).length⟩, 1, f⟩, Except.ok ()) := by
      have h := write_record_eq [] 0 f r
      simpa [XyzInternalWriter.new, herr] using h
    have hw : writeRecords (XyzInternalWriter.new ⟨[], 0⟩ f) (r :: rest) =
        ⟨some ⟨(headerBytes f ++ recordBytes f r) ++ bodyBytes f rest,
          ((headerBytes f ++ recordBytes f r) ++ bodyBytes f rest).length⟩,
          1 + rest.length, f⟩ := by
      calc writeRecords (XyzInternalWriter.new ⟨[], 0⟩ f) (r :: rest)
          = writeRecords
              (XyzInternalWriter.write_record (XyzInternalWriter.new ⟨[], 0⟩ f) r).1
              rest := rfl
        _ = writeRecords ⟨some ⟨headerBytes f ++ recordBytes f r,
              (headerBytes f ++ recordBytes f r).length⟩, 1, f⟩ rest := by rw [hstep]
        _ = _ := writeRecords_spec rest f _ 1 (by omega)
              (fun x hx => (hm x (by simp [hx])).1)
    rw [hw]
    have hbuf : (headerBytes f ++ recordBytes f r) ++ bodyBytes f rest =
        (XYZ_MAGIC ++ [f.toU8]) ++ u64ToBytes u64MAX ++
          (recordBytes f r ++ bodyBytes f rest) := by
      simp [headerBytes, List.append_assoc]
    rw [hbuf, finish_eq _ _ _ _ _ f (by simp [XYZ_MAGIC]) (length_u64ToBytes _)]
    rw [show 1 + rest.length = rest.length + 1 from Nat.add_comm 1 rest.length]
    simp [streamBytes, bodyBytes_cons, List.append_assoc]
  · simpa [streamBytes] using new_on_stream f rs.length (bodyBytes f rs) hcnt
  · have h13 : ((XYZ_MAGIC ++ [f.toU8]) ++ u64ToBytes rs.length).length = 13 := by
      simp [XYZ_MAGIC, length_u64ToBytes]
    have hdrop : (streamBytes f rs).drop 13 = bodyBytes f rs ++ [] := by
      calc (streamBytes f rs).drop 13
          = (((XYZ_MAGIC ++ [f.toU8]) ++ u64ToBytes rs.length) ++ bodyBytes f rs).drop 13 :=
            by simp [streamBytes, List.append_assoc]
        _ = bodyBytes f rs := List.drop_left' h13
        _ = bodyBytes f rs ++ [] := by simp
    simpa using drain_spec rs f (streamBytes f rs) [] 13 0 hdrop hm

/-- C1 witness: one with-metadata record round-trips. -/
theorem c1_roundtrip_witness :
    ((writeRecords (XyzInternalWriter.new ⟨[], 0⟩ Format.XyzMeta)
        [⟨1, 2, 3, some ⟨4, 5, 6⟩⟩]).finish).2 =
      Except.ok ⟨streamBytes Format.XyzMeta [⟨1, 2, 3, some ⟨4, 5, 6⟩⟩], 13⟩ ∧
    XyzInternalReader.new ⟨streamBytes Format.XyzMeta [⟨1, 2, 3, some ⟨4, 5, 6⟩⟩], 0⟩ =
      NewResult.ok ⟨⟨streamBytes Format.XyzMeta [⟨1, 2, 3, some ⟨4, 5, 6⟩⟩], 13⟩,
        Format.XyzMeta, 1, 0⟩ ∧
    drain ⟨⟨streamBytes Format.XyzMeta [⟨1, 2, 3, some ⟨4, 5, 6⟩⟩], 13⟩,
        Format.XyzMeta, 1, 0⟩ 2 =
      [Except.ok (some ⟨1, 2, 3, some ⟨4, 5, 6⟩⟩), Except.ok none] :=
  c1_roundtrip Format.XyzMeta [⟨1, 2, 3, some ⟨4, 5, 6⟩⟩]
    (by decide) (by decide) (by decide)

/-- C1 counterexample (the N = 0 case of the claim as stated): writing zero
records and finalizing yields a 13-byte stream of zeros — no magic, no tag —
and `XyzInternalReader::new` on it fails with `InvalidData` instead of
yielding an end-of-stream signal. -/
theorem c1_counterexample :
    ((XyzInternalWriter.new ⟨[], 0⟩ Format.Xyz).finish).2 =
      Except.ok ⟨List.replicate 13 0, 13⟩ ∧
    XyzInternalReader.new ⟨List.replicate 13 0, 0⟩ =
      NewResult.err ⟨IoErrorKind.InvalidData, "invalid magic number"⟩ := by
  constructor
  · rfl
  · rfl

/-- C2 counterexample: on a source with valid magic and tag byte `3`
(neither 1 nor 2), `XyzInternalReader::new` does not return a decoding
error — it panics through `expect("should have known format")`, terminating
the program. -/
theorem c2_counterexample :
    XyzInternalReader.new ⟨XYZ_MAGIC ++ [3] ++ List.replicate 8 0, 0⟩ =
      NewResult.panicked "should have known format" := by
  rfl

/-- C2 (amended): for every input source whose first four bytes equal the
magic constant and whose fifth byte is neither 1 nor 2, reader construction
panics (the `expect` on the format decode) rather than returning a decoding
error to the caller. -/
theorem c2_unknown_tag_panics (b : Nat) (rest : List Nat) (h1 : b ≠ 1) (h2 : b ≠ 2) :
    XyzInternalReader.new ⟨XYZ_MAGIC ++ b :: rest, 0⟩ =
      NewResult.panicked "should have known format" := by
  set buf : List Nat := XYZ_MAGIC ++ b :: rest with hbuf
  have hd0 : buf.drop 0 = XYZ_MAGIC ++ (b :: rest) := by simp [hbuf]
  have hr1 : Source.readExact ⟨buf, 0⟩ 4 = Except.ok (XYZ_MAGIC, ⟨buf, 4⟩) := by
    simpa using readExact_spec buf XYZ_MAGIC _ 0 4 hd0 rfl (by omega)
  have hd1 : buf.drop 4 = [b] ++ rest := by
    simpa using drop_shift buf XYZ_MAGIC _ 0 4 hd0 rfl
  have hr2 : Source.readExact ⟨buf, 4⟩ 1 = Except.ok ([b], ⟨buf, 5⟩) := by
    simpa using readExact_spec buf [b] rest 4 1 hd1 rfl (by omega)
  have htf : Format.tryFrom b = Except.error ("unknown Format value: " ++ toString b) := by
    simp [Format.tryFrom, h1, h2]
  simp [XyzInternalReader.new, XYZ_MAGIC, hr1, hr2, htf]

/-- C2 witness for the amended claim at tag byte 3. -/
theorem c2_unknown_tag_panics_witness :
    XyzInternalReader.new ⟨XYZ_MAGIC ++ 3 :: List.replicate 8 0, 0⟩ =
      NewResult.panicked "should have known format" :=
  c2_unknown_tag_panics 3 (List.replicate 8 0) (by decide) (by decide)

/-- C3 counterexample: `finish` on a writer that never wrote a record does
patch the sink — it seeks to offset 5 of the empty sink, zero-fills
offsets 0–4, and writes the 8-byte count 0 there, changing the sink's byte
content from empty to 13 bytes and placing count bytes at the count-field
offset of a stream that lacks the magic and tag bytes. -/
theorem c3_counterexample :
    ((XyzInternalWriter.new ⟨[], 0⟩ Format.Xyz).finish).2 =
      Except.ok ⟨List.replicate 5 0 ++ u64ToBytes 0, 13⟩ ∧
    (List.replicate 5 0 ++ u64ToBytes 0 : List Nat) ≠ [] ∧
    (List.replicate 5 0 ++ u64ToBytes 0 : List Nat).drop 5 = u64ToBytes 0 := by
  refine ⟨rfl, by decide, rfl⟩

/-- C3 (amended): if `finish` is called on a writer on which `write_record`
never succeeded, it still performs the count patch unconditionally: it seeks
to offset 5 and writes the 8-byte count 0, zero-filling the five header
bytes, so the resulting stream is 13 bytes long and lacks the magic and tag
bytes. -/
theorem c3_zero_records_finish (f : Format) :
    ((XyzInternalWriter.new ⟨[], 0⟩ f).finish).2 =
      Except.ok ⟨List.replicate 5 0 ++ u64ToBytes 0, 13⟩ := by
  cases f <;> rfl

set_option maxRecDepth 10000 in
/-- C4 counterexample: with the with-metadata format, a first `write_record`
call that fails (record without metadata) emits the header and the 24
coordinate bytes but does not increment the count, so the next call — a
later call — emits the 13 header bytes (magic, tag, placeholder) again at
offset 37 instead of appending only the record's serialized bytes. -/
theorem c4_counterexample :
    ((((XyzInternalWriter.new ⟨[], 0⟩ Format.XyzMeta).write_record
        ⟨1, 2, 3, none⟩).1).write_record ⟨1, 2, 3, some ⟨4, 5, 6⟩⟩).1.inner =
      some ⟨XYZ_MAGIC ++ [2] ++ u64ToBytes u64MAX ++
            (u64ToBytes 1 ++ u64ToBytes 2 ++ u64ToBytes 3) ++
            (XYZ_MAGIC ++ [2] ++ u64ToBytes u64MAX) ++
            (u64ToBytes 1 ++ u64ToBytes 2 ++ u64ToBytes 3 ++ [4, 5, 6]), 77⟩ ∧
    ((XYZ_MAGIC ++ [2] ++ u64ToBytes u64MAX ++
        (u64ToBytes 1 ++ u64ToBytes 2 ++ u64ToBytes 3) ++
        (XYZ_MAGIC ++ [2] ++ u64ToBytes u64MAX) ++
        (u64ToBytes 1 ++ u64ToBytes 2 ++ u64ToBytes 3 ++ [4, 5, 6]) : List Nat).drop 37).take 13
      = XYZ_MAGIC ++ [2] ++ u64ToBytes u64MAX := by
  exact ⟨by rfl, by rfl⟩

/-- C4 (amended): on a live, end-positioned writer, a `write_record` call
emits the header bytes exactly when no call has yet succeeded
(`records_written = 0`), followed by the record's serialized bytes (the 24
coordinate bytes, plus the three metadata bytes only in the successful
with-metadata case); once some call has succeeded, later calls append only
the record bytes and never the header again. -/
theorem c4_header_emission (w : XyzInternalWriter) (r : XyzRecord) (s : Sink)
    (hinner : w.inner = some s) (hpos : s.pos = s.buf.length) :
    ((w.write_record r).1).inner =
      some ⟨s.buf ++ (if w.records_written = 0 then headerBytes w.format else [])
              ++ recordBytes w.format r,
            (s.buf ++ (if w.records_written = 0 then headerBytes w.format else [])
              ++ recordBytes w.format r).length⟩ := by
  obtain ⟨inner, k, f⟩ := w
  obtain ⟨buf, pos⟩ := s
  simp only at hinner hpos
  subst hinner
  subst hpos
  rw [write_record_eq]

/-- C4 witness for the amended claim: a first (count-zero) call emits the
header followed by the record bytes. -/
theorem c4_header_emission_witness :
    (((XyzInternalWriter.new ⟨[], 0⟩ Format.Xyz).write_record ⟨1, 2, 3, none⟩).1).inner =
      some ⟨[] ++ (if 0 = 0 then headerBytes Format.Xyz else [])
              ++ recordBytes Format.Xyz ⟨1, 2, 3, none⟩,
            ([] ++ (if 0 = 0 then headerBytes Format.Xyz else [])
              ++ recordBytes Format.Xyz ⟨1, 2, 3, none⟩).length⟩ :=
  c4_header_emission (XyzInternalWriter.new ⟨[], 0⟩ Format.Xyz) ⟨1, 2, 3, none⟩
    ⟨[], 0⟩ rfl rfl

/-- C5: record serialization fails with `InvalidInput` if and only if the
format tag is with-metadata and the record's metadata is absent; under the
bare tag a record (with or without metadata) succeeds and appends exactly
the 24 coordinate bytes — no metadata bytes reach the stream. -/
theorem c5_write_error_iff (r : XyzRecord) (buf : List Nat) (f : Format) :
    ((XyzRecord.writeTo r ⟨buf, buf.length⟩ f).2 =
        Except.error ⟨IoErrorKind.InvalidInput, "meta data required for XyzMeta format"⟩
      ↔ f = Format.XyzMeta ∧ r.meta = none) ∧
    XyzRecord.writeTo r ⟨buf, buf.length⟩ Format.Xyz =
      (⟨buf ++ (u64ToBytes r.x ++ u64ToBytes r.y ++ u64ToBytes r.z),
        (buf ++ (u64ToBytes r.x ++ u64ToBytes r.y ++ u64ToBytes r.z)).length⟩,
       Except.ok ()) := by
  constructor
  · rw [writeTo_eq]
    by_cases herr : f = Format.XyzMeta ∧ r.meta = none <;> simp [herr]
  · rw [writeTo_eq]
    simp [recordBytes, metaBytes, List.append_assoc]

/-- C6: a source whose first four bytes differ from the magic constant
fails to open with an `InvalidData` error, whatever follows. -/
theorem c6_bad_magic (buf : List Nat) (h4 : 4 ≤ buf.length)
    (hmag : buf.take 4 ≠ XYZ_MAGIC) :
    XyzInternalReader.new ⟨buf, 0⟩ =
      NewResult.err ⟨IoErrorKind.InvalidData, "invalid magic number"⟩ := by
  have hre : Source.readExact ⟨buf, 0⟩ 4 = Except.ok (buf.take 4, ⟨buf, 4⟩) := by
    simp [Source.readExact, h4]
  have hlen : XYZ_MAGIC.length = 4 := rfl
  simp [XyzInternalReader.new, hlen, hre, hmag]

/-- C6 witness at the all-zero four-byte prefix. -/
theorem c6_bad_magic_witness :
    XyzInternalReader.new ⟨[0, 0, 0, 0], 0⟩ =
      NewResult.err ⟨IoErrorKind.InvalidData, "invalid magic number"⟩ :=
  c6_bad_magic [0, 0, 0, 0] (by decide) (by decide)

/-- C7: for every record the codec accepts, serialization appends exactly
`fmtSize` bytes — 24 bare (x, y, z as 8-byte values, in that order), 27
with metadata (the 24 coordinate bytes then classification,
number-of-returns, return-number) — and deserialization under the same tag
consumes exactly that many bytes. -/
theorem c7_record_sizes (f : Format) (r : XyzRecord) (buf rbuf rest : List Nat) (p : Nat)
    (hm : metaMatches f r) (hv : ValidRecord r)
    (hd : rbuf.drop p = recordBytes f r ++ rest) :
    XyzRecord.writeTo r ⟨buf, buf.length⟩ f =
      (⟨buf ++ recordBytes f r, (buf ++ recordBytes f r).length⟩, Except.ok ()) ∧
    (recordBytes f r).length = fmtSize f ∧
    recordBytes f r = u64ToBytes r.x ++ u64ToBytes r.y ++ u64ToBytes r.z ++
      metaBytes f r.meta ∧
    XyzRecord.readFrom ⟨rbuf, p⟩ f = (⟨rbuf, p + fmtSize f⟩, Except.ok r) := by
  have herr : ¬(f = Format.XyzMeta ∧ r.meta = none) := by
    rintro ⟨hf, hmn⟩
    subst hf
    exact hm hmn
  refine ⟨?_, length_recordBytes f r hm, rfl, readFrom_spec rbuf rest p f r hd hm hv⟩
  rw [writeTo_eq]
  simp [herr]

/-- C7 witness at a concrete with-metadata record. -/
theorem c7_record_sizes_witness :
    XyzRecord.writeTo ⟨1, 2, 3, some ⟨4, 5, 6⟩⟩
        ⟨([] : List Nat), ([] : List Nat).length⟩ Format.XyzMeta =
      (⟨[] ++ recordBytes Format.XyzMeta ⟨1, 2, 3, some ⟨4, 5, 6⟩⟩,
        ([] ++ recordBytes Format.XyzMeta ⟨1, 2, 3, some ⟨4, 5, 6⟩⟩).length⟩,
       Except.ok ()) ∧
    (recordBytes Format.XyzMeta ⟨1, 2, 3, some ⟨4, 5, 6⟩⟩).length =
      fmtSize Format.XyzMeta ∧
    recordBytes Format.XyzMeta ⟨1, 2, 3, some ⟨4, 5, 6⟩⟩ =
      u64ToBytes 1 ++ u64ToBytes 2 ++ u64ToBytes 3 ++ [4, 5, 6] ∧
    XyzRecord.readFrom ⟨recordBytes Format.XyzMeta ⟨1, 2, 3, some ⟨4, 5, 6⟩⟩ ++ [], 0⟩
        Format.XyzMeta =
      (⟨recordBytes Format.XyzMeta ⟨1, 2, 3, some ⟨4, 5, 6⟩⟩ ++ [],
        0 + fmtSize Format.XyzMeta⟩,
       Except.ok ⟨1, 2, 3, some ⟨4, 5, 6⟩⟩) :=
  c7_record_sizes Format.XyzMeta ⟨1, 2, 3, some ⟨4, 5, 6⟩⟩ []
    (recordBytes Format.XyzMeta ⟨1, 2, 3, some ⟨4, 5, 6⟩⟩ ++ []) [] 0
    (by decide) (by decide) (by decide)

/-- C8: once the running count has reached the declared count, `next()`
returns `Ok(None)` and leaves the reader — in particular the source and its
position — completely unchanged, so no bytes are read even if the source
has trailing data. -/
theorem c8_eos_reads_nothing (rd : XyzInternalReader)
    (h : rd.n_records ≤ rd.records_read) :
    rd.next = (rd, Except.ok none) := by
  simp [XyzInternalReader.next, h]

/-- C8 witness: a fully-consumed reader over a source with trailing data. -/
theorem c8_eos_reads_nothing_witness :
    XyzInternalReader.next ⟨⟨[9, 9, 9], 0⟩, Format.Xyz, 0, 0⟩ =
      (⟨⟨[9, 9, 9], 0⟩, Format.Xyz, 0, 0⟩, Except.ok none) :=
  c8_eos_reads_nothing ⟨⟨[9, 9, 9], 0⟩, Format.Xyz, 0, 0⟩ (by decide)

/-- C9: reader construction accepts the declared count verbatim: for any
source with valid magic, recognized tag byte, and at least eight further
bytes, construction succeeds and stores exactly the count encoded by those
eight bytes — including the all-ones sentinel — with no validation. -/
theorem c9_count_accepted_verbatim (b : Nat) (rest : List Nat)
    (hb : b = 1 ∨ b = 2) (hlen : 8 ≤ rest.length) :
    XyzInternalReader.new ⟨XYZ_MAGIC ++ b :: rest, 0⟩ =
      NewResult.ok ⟨⟨XYZ_MAGIC ++ b :: rest, 13⟩,
        if b = 1 then Format.Xyz else Format.XyzMeta,
        u64FromBytes (rest.take 8), 0⟩ := by
  set buf : List Nat := XYZ_MAGIC ++ b :: rest with hbuf
  have hd0 : buf.drop 0 = XYZ_MAGIC ++ (b :: rest) := by simp [hbuf]
  have hr1 : Source.readExact ⟨buf, 0⟩ 4 = Except.ok (XYZ_MAGIC, ⟨buf, 4⟩) := by
    simpa using readExact_spec buf XYZ_MAGIC _ 0 4 hd0 rfl (by omega)
  have hd1 : buf.drop 4 = [b] ++ rest := by
    simpa using drop_shift buf XYZ_MAGIC _ 0 4 hd0 rfl
  have hr2 : Source.readExact ⟨buf, 4⟩ 1 = Except.ok ([b], ⟨buf, 5⟩) := by
    simpa using readExact_spec buf [b] rest 4 1 hd1 rfl (by omega)
  have hd2 : buf.drop 5 = rest.take 8 ++ rest.drop 8 := by
    have := drop_shift buf [b] rest 4 1 hd1 rfl
    simpa [List.take_append_drop] using this
  have hr3 : Source.readExact ⟨buf, 5⟩ 8 = Except.ok (rest.take 8, ⟨buf, 13⟩) := by
    simpa using readExact_spec buf (rest.take 8) (rest.drop 8) 5 8 hd2
      (by rw [List.length_take]; omega) (by omega)
  rcases hb with hb | hb <;> subst hb <;>
    simp [XyzInternalReader.new, XYZ_MAGIC, hr1, hr2, hr3, Format.tryFrom]

/-- C9 witness: the all-ones sentinel count is accepted at open time. -/
theorem c9_count_accepted_verbatim_witness :
    XyzInternalReader.new ⟨XYZ_MAGIC ++ 1 :: List.replicate 8 255, 0⟩ =
      NewResult.ok ⟨⟨XYZ_MAGIC ++ 1 :: List.replicate 8 255, 13⟩,
        if 1 = 1 then Format.Xyz else Format.XyzMeta,
        u64FromBytes ((List.replicate 8 255).take 8), 0⟩ :=
  c9_count_accepted_verbatim 1 (List.replicate 8 255) (Or.inl rfl) (by decide)

/-- C10: when `next()` fails with a deserialization error the running count
is left unchanged (and still below the declared count), so the following
`next()` call attempts a fresh deserialization from the source's current
position instead of returning end-of-stream or a remembered error. -/
theorem c10_not_latched (rd rd' : XyzInternalReader) (e : IoError)
    (h : rd.next = (rd', Except.error e)) :
    rd'.records_read = rd.records_read ∧
    rd'.n_records = rd.n_records ∧
    rd'.format = rd.format ∧
    rd'.records_read < rd'.n_records ∧
    (rd'.next).2 =
      (match (XyzRecord.readFrom rd'.inner rd'.format).2 with
       | Except.error e2 => Except.error e2
       | Except.ok record => Except.ok (some record)) := by
  unfold XyzInternalReader.next at h
  by_cases hle : rd.n_records ≤ rd.records_read
  · rw [if_pos hle] at h
    simp at h
  · rw [if_neg hle] at h
    rcases hr : XyzRecord.readFrom rd.inner rd.format with ⟨inner2, res⟩
    rw [hr] at h
    cases res with
    | ok record => simp at h
    | error e0 =>
      simp only [Prod.mk.injEq] at h
      obtain ⟨hrd, _⟩ := h
      subst hrd
      refine ⟨rfl, rfl, rfl, by simp only []; omega, ?_⟩
      have hle2 : ¬(rd.n_records ≤ rd.records_read) := hle
      rcases hr2 : XyzRecord.readFrom ({ rd with inner := inner2 } :
          XyzInternalReader).inner ({ rd with inner := inner2 } :
          XyzInternalReader).format with ⟨inner3, res2⟩
      cases res2 <;> simp [XyzInternalReader.next, hle2, hr2]

/-- C10 witness: a truncated source errors and the reader retries the read
on the following call. -/
theorem c10_not_latched_witness :
    ((⟨⟨[], 0⟩, Format.Xyz, 1, 0⟩ : XyzInternalReader).records_read =
        (⟨⟨[], 0⟩, Format.Xyz, 1, 0⟩ : XyzInternalReader).records_read ∧
     (⟨⟨[], 0⟩, Format.Xyz, 1, 0⟩ : XyzInternalReader).n_records =
        (⟨⟨[], 0⟩, Format.Xyz, 1, 0⟩ : XyzInternalReader).n_records ∧
     (⟨⟨[], 0⟩, Format.Xyz, 1, 0⟩ : XyzInternalReader).format =
        (⟨⟨[], 0⟩, Format.Xyz, 1, 0⟩ : XyzInternalReader).format ∧
     (⟨⟨[], 0⟩, Format.Xyz, 1, 0⟩ : XyzInternalReader).records_read <
        (⟨⟨[], 0⟩, Format.Xyz, 1, 0⟩ : XyzInternalReader).n_records ∧
     ((⟨⟨[], 0⟩, Format.Xyz, 1, 0⟩ : XyzInternalReader).next).2 =
       (match (XyzRecord.readFrom
           (⟨⟨[], 0⟩, Format.Xyz, 1, 0⟩ : XyzInternalReader).inner
           (⟨⟨[], 0⟩, Format.Xyz, 1, 0⟩ : XyzInternalReader).format).2 with
        | Except.error e2 => Except.error e2
        | Except.ok record => Except.ok (some record))) :=
  c10_not_latched ⟨⟨[], 0⟩, Format.Xyz, 1, 0⟩ ⟨⟨[], 0⟩, Format.Xyz, 1, 0⟩
    ⟨IoErrorKind.UnexpectedEof, "failed to fill whole buffer"⟩ (by decide)

end Xyz
